import Mathlib

/-!
Shallow embedding of `src/prototypes/elevator.py` (the elevator micro-game):
the entity model, the command interpreter `handle_action`, the tick engine
`update` and the disembark dispatch `handle_debark`, translated line by line
from the Python source.

Modelling conventions:
* Python unbounded `int` becomes `Int`.
* The Python `float` field `config.arrival_rate` and the `random.random()`
  draw are modelled as rationals; the only operation ever performed on them
  is the order comparison `random.random() < arrival_rate`.
* All randomness consumed by one tick is passed in explicitly as a `Rand`
  record of pre-drawn values; `random.randrange(0, hi)` becomes a function
  of the pre-drawn seed that fails exactly when the range is empty, which is
  the only property of `randrange` the program's control flow depends on.
* Uncaught Python exceptions (IndexError, ValueError from `randrange`, the
  `raise` in the spawner) become `Except.error`; `exit()` on the `quit`
  command becomes the dedicated result `HRes.halt`.
* In-place mutation of the `State` aggregate becomes explicit state passing;
  the `for i, elevator in enumerate(state.elevators)` loop of `update`
  becomes a monadic fold of `stepElevator` over the index range, which is
  faithful because one loop iteration mutates only elevator `i`, the shared
  floors list and the scalar fields, never another elevator.
-/

namespace ElevatorSim

/-- Passenger kinds: the Python source has a base class `Passenger` (ordinary)
and subclasses `Brick`, `VIP`, `Mechanic`; `handle_debark` dispatches with
`isinstance`, so the four classes form a closed enumeration. -/
inductive Kind where
  | Ordinary
  | Brick
  | VIP
  | Mechanic
deriving DecidableEq, Repr

/-- `Passenger` dataclass: `target_floor: int`, plus which subclass it is. -/
structure Passenger where
  target_floor : Int
  kind : Kind := .Ordinary
deriving DecidableEq, Repr

/-- `Elevator` dataclass with the source's defaults. -/
structure Elevator where
  floor : Int := 0
  doors_open : Bool := true
  going_to : List Int := []
  capacity : Int := 0
  passengers : List Passenger := []
deriving DecidableEq, Repr

/-- `Floor` dataclass: the FIFO waiting line. -/
structure Floor where
  passengers : List Passenger := []
deriving DecidableEq, Repr

/-- `Config` dataclass; `arrival_rate: float = 0` modelled as a rational. -/
structure Config where
  arrival_rate : ℚ := 0
deriving DecidableEq, Repr

/-- `State` dataclass: the aggregate root. -/
structure State where
  config : Config := {}
  score : Int := 0
  failed : Bool := false
  time_remaining : Int := 0
  floors : List Floor := []
  elevators : List Elevator := []
  events : List String := []
deriving DecidableEq, Repr

/-- The randomness one call to `update` may consume, pre-drawn: `u` models
the `random.random()` value in `[0,1)` and the three naturals seed the
(up to) three `randrange` calls of the spawner. -/
structure Rand where
  u : ℚ := 0
  originDraw : Nat := 0
  targetDraw : Nat := 0
  kindDraw : Nat := 0
deriving DecidableEq, Repr

/-- Models `random.randrange(0, hi)`: raises `ValueError` on an empty range
(`hi ≤ 0`), otherwise returns a value in `[0, hi)` determined by the
pre-drawn seed. -/
def randrange (hi : Int) (draw : Nat) : Except String Int :=
  if hi ≤ 0 then .error "ValueError: empty range for randrange()"
  else .ok ((draw : Int) % hi)

/-- The `passenger_pool` dict, in its (insertion-ordered) iteration order. -/
def passenger_pool : List (Kind × Int) :=
  [(.Ordinary, 10), (.Brick, 0), (.VIP, 3), (.Mechanic, 1)]

/-- `passenger_pool_total = sum(v for v in passenger_pool.values())`. -/
def passenger_pool_total : Int := (passenger_pool.map Prod.snd).sum

/-- The spawner's `for PassengerConstructor, weight in passenger_pool.items()`
loop: pick the first entry whose weight exceeds the remaining roll,
subtracting weights along the way; `none` models the `for/else` `raise`. -/
def choosePassenger : List (Kind × Int) → Int → Option Kind
  | [], _ => none
  | (k, w) :: rest, roll => if roll < w then some k else choosePassenger rest (roll - w)

/-- Python list index resolution: a non-negative index must be in range, a
negative index wraps once from the end, anything else is an IndexError. -/
def pyIdx (n : Nat) (i : Int) : Option Nat :=
  if 0 ≤ i then (if i < (n : Int) then some i.toNat else none)
  else (if 0 ≤ i + (n : Int) then some (i + (n : Int)).toNat else none)

/-- Python `xs[i]` read. -/
def pyGet (xs : List α) (i : Int) : Option α :=
  (pyIdx xs.length i).bind xs.get?

/-- Python `xs[i] = a` style write-back at a previously resolved index
(a no-op when the index does not resolve; all uses read first). -/
def pySet (xs : List α) (i : Int) (a : α) : List α :=
  match pyIdx xs.length i with
  | some j => xs.set j a
  | none => xs

/-- Replace entry `i` of a list by `f` of itself (no-op out of range). -/
def modifyAt (xs : List α) (i : Nat) (f : α → α) : List α :=
  match xs.get? i with
  | some x => xs.set i (f x)
  | none => xs

/-- Decidable equality on exception results, so that concrete runs of the
tick engine can be checked by evaluation. -/
instance [DecidableEq ε] [DecidableEq α] : DecidableEq (Except ε α) := fun x y =>
  match x, y with
  | .error a, .error b =>
    if h : a = b then isTrue (by rw [h]) else isFalse (by simp [h])
  | .ok a, .ok b =>
    if h : a = b then isTrue (by rw [h]) else isFalse (by simp [h])
  | .error _, .ok _ => isFalse (by simp)
  | .ok _, .error _ => isFalse (by simp)

/-- `handle_debark` from the source: dispatch on the passenger's subclass.
VIP adds 11 to the score (while the logged text says +10), Mechanic adds 20
time, Brick costs 5 score, a plain passenger scores 1. -/
def handle_debark (s : State) (p : Passenger) : State :=
  match p.kind with
  | .VIP => { s with
      score := s.score + 11,
      events := s.events ++ ["📈  +10 bonus score!"] }
  | .Mechanic => { s with
      time_remaining := s.time_remaining + 20,
      events := s.events ++ ["⏳  +20 time gained!"] }
  | .Brick => { s with
      score := s.score - 5,
      events := s.events ++ ["😞 -5 score from delivering brick."] }
  | .Ordinary => { s with score := s.score + 1 }

/-- One iteration of `update`'s `for i, elevator in enumerate(state.elevators)`
loop, for elevator index `i`: the doors-open phase (exit / board / close) or
the doors-closed phase (arrive / move one floor toward the head
destination). -/
def stepElevator (s : State) (i : Nat) : Except String State :=
  match s.elevators.get? i with
  | none => .ok s
  | some el =>
    if el.doors_open then
      match pyGet s.floors el.floor with
      | none => .error "IndexError: list index out of range"
      | some fl =>
        if el.passengers.any (fun p => p.target_floor == el.floor) then
          match el.passengers with
          | [] => .error "IndexError: pop from empty list"
          | p :: rest =>
            if p.target_floor == el.floor then
              .ok (handle_debark
                { s with
                  elevators := s.elevators.set i { el with passengers := rest },
                  events := s.events ++
                    ["🎉 Elevator " ++ toString i ++ " dropped off a passenger."] } p)
            else
              .ok { s with
                elevators := s.elevators.set i { el with passengers := rest },
                floors := pySet s.floors el.floor
                  { fl with passengers := p :: fl.passengers } }
        else
          match fl.passengers, decide ((el.passengers.length : Int) < el.capacity) with
          | q :: qrest, true =>
            if ((q :: el.passengers).length : Int) == el.capacity then
              .ok { s with
                elevators := s.elevators.set i { el with passengers := q :: el.passengers },
                floors := pySet s.floors el.floor { fl with passengers := qrest },
                events := s.events ++ ["⛔  Elevator " ++ toString i ++ " is now full."] }
            else
              .ok { s with
                elevators := s.elevators.set i { el with passengers := q :: el.passengers },
                floors := pySet s.floors el.floor { fl with passengers := qrest } }
          | _, _ =>
            if el.going_to.isEmpty then
              .ok { s with
                elevators := s.elevators.set i { el with doors_open := false },
                events := s.events ++ ["❇️  Elevator " ++ toString i ++ " ready to move."] }
            else
              .ok { s with
                elevators := s.elevators.set i { el with doors_open := false } }
    else
      match el.going_to with
      | [] => .ok s
      | g :: grest =>
        if g == el.floor then
          .ok { s with
            elevators := s.elevators.set i { el with going_to := grest, doors_open := true } }
        else if g < el.floor then
          .ok { s with elevators := s.elevators.set i { el with floor := el.floor - 1 } }
        else
          .ok { s with elevators := s.elevators.set i { el with floor := el.floor + 1 } }

/-- Run `stepElevator` over a list of elevator indices in order, stopping at
the first uncaught exception — the straight-line reading of the `for` loop. -/
def foldSteps : List Nat → State → Except String State
  | [], s => .ok s
  | i :: l, s =>
    match stepElevator s i with
    | .error e => .error e
    | .ok s1 => foldSteps l s1

/-- The whole elevator loop of `update`. -/
def tickElevators (s : State) : Except String State :=
  foldSteps (List.range s.elevators.length) s

/-- The `# Randomly add passengers` block of `update`: spawn with probability
`arrival_rate`; origin uniform over floors, destination uniform over the
other floors, kind by the weighted roll; the new passenger is appended to the
origin floor's queue. -/
def spawn (s : State) (r : Rand) : Except String State :=
  if r.u < s.config.arrival_rate then
    match randrange (s.floors.length : Int) r.originDraw with
    | .error e => .error e
    | .ok origin =>
      match randrange ((s.floors.length : Int) - 1) r.targetDraw with
      | .error e => .error e
      | .ok t0 =>
        match randrange passenger_pool_total r.kindDraw with
        | .error e => .error e
        | .ok roll =>
          match choosePassenger passenger_pool roll with
          | none => .error "Passenger roll mechanism generated an invalid roll."
          | some k =>
            match pyGet s.floors origin with
            | none => .error "IndexError: list index out of range"
            | some fl =>
              .ok { s with
                floors := pySet s.floors origin
                  { fl with passengers := fl.passengers ++
                      [{ target_floor := if t0 ≥ origin then t0 + 1 else t0, kind := k }] },
                events := s.events ++
                  ["‼️  New passenger waiting at floor " ++ toString origin ++ "."] }
  else .ok s

/-- `update` from the source: decrement `time_remaining`, run the elevator
loop, maybe spawn a passenger, then set `failed` (with the terminal log line)
if the time budget is exhausted. -/
def update (s : State) (r : Rand) : Except String State :=
  match tickElevators { s with time_remaining := s.time_remaining - 1 } with
  | .error e => .error e
  | .ok s1 =>
    match spawn s1 r with
    | .error e => .error e
    | .ok s2 =>
      if s2.time_remaining ≤ 0 then
        .ok { s2 with
          failed := true,
          events := s2.events ++ ["⌛ Out of time. Final score: " ++ toString s2.score] }
      else .ok s2

/-- Python `str.split(' ')` with an explicit separator: adjacent separators
produce empty fields and the result is never empty. -/
def splitSpaces : List Char → List Char → List (List Char)
  | [], acc => [acc.reverse]
  | c :: rest, acc =>
    if c = ' ' then acc.reverse :: splitSpaces rest []
    else splitSpaces rest (c :: acc)

/-- Digit tail of a Python integer literal: decimal digits with single
interior underscores allowed between digits. -/
def parseDigitsAux : List Char → Nat → Option Nat
  | [], acc => some acc
  | '_' :: c :: cs, acc =>
    if c.isDigit then parseDigitsAux cs (acc * 10 + (c.toNat - 48)) else none
  | ['_'], _ => none
  | c :: cs, acc =>
    if c.isDigit then parseDigitsAux cs (acc * 10 + (c.toNat - 48)) else none

/-- A nonempty run of decimal digits (with interior underscores). -/
def parseUnsigned : List Char → Option Nat
  | [] => none
  | c :: cs => if c.isDigit then parseDigitsAux cs (c.toNat - 48) else none

/-- Optional sign followed by digits. -/
def pyIntCore : List Char → Option Int
  | '+' :: rest => (parseUnsigned rest).map (fun n => (n : Int))
  | '-' :: rest => (parseUnsigned rest).map (fun n => -(n : Int))
  | cs => (parseUnsigned cs).map (fun n => (n : Int))

/-- Strip leading and trailing whitespace. -/
def trimChars (cs : List Char) : List Char :=
  ((cs.dropWhile Char.isWhitespace).reverse.dropWhile Char.isWhitespace).reverse

/-- Python `int(str)` modelled for the decimal forms: surrounding whitespace
stripped, optional sign, nonempty digit run with single interior underscores;
`none` models the `ValueError` the command handlers catch. -/
def pyInt (cs : List Char) : Option Int := pyIntCore (trimChars cs)

/-- `[int(x) for x in action.split(' ')[1:]]`: `none` when any `int()`
raises. -/
def parseArgs (a : String) : Option (List Int) :=
  ((splitSpaces a.toList []).tail).mapM pyInt

/-- Python `str.startswith`. -/
def startsWithChars : List Char → List Char → Bool
  | [], _ => true
  | _ :: _, [] => false
  | p :: ps, c :: cs => p == c && startsWithChars ps cs

/-- The `except` event of the `go` handler. -/
def goErrMsg : String := "❌ Invalid \"go\" command, need <elevator>, <target floor>."

/-- The `except` event of the `dump` handler (mentions the top floor). -/
def dumpErrMsg (s : State) : String :=
  "❌ Invalid \"dump\" command, need <elevator> on floor " ++
    toString ((s.floors.length : Int) - 1) ++ "."

/-- The `except` event of the `close` handler. -/
def closeErrMsg : String := "❌ Invalid \"close\" command, need <elevator>."

/-- The catch-all event for unrecognized actions. -/
def invalidActionMsg (a : String) : String := "❌ Invalid action: \"" ++ a ++ "\"."

/-- Result of one `handle_action` call: `halt` models `exit()` on `quit`,
`err` an uncaught exception escaping from `update`, `ok` a returned state. -/
inductive HRes where
  | halt
  | err (msg : String)
  | ok (s : State)
deriving DecidableEq, Repr

/-- `handle_action` from the source: dispatch on the action string; `''`
delegates to `update`; `go`/`dump`/`close` validate inside a `try` whose
`except` appends a single error event and changes nothing else; anything
else appends the invalid-action event. -/
def handle_action (s : State) (a : String) (r : Rand) : HRes :=
  if a = "quit" then .halt
  else if a = "" then
    match update s r with
    | .ok s2 => .ok s2
    | .error e => .err e
  else if startsWithChars ("go".toList) a.toList then
    match parseArgs a with
    | some [e, f] =>
      if e ≥ (s.elevators.length : Int) ∨ f ≥ (s.floors.length : Int) then
        .ok { s with events := s.events ++ [goErrMsg] }
      else if e < 0 ∨ f < 0 then
        .ok { s with events := s.events ++ [goErrMsg] }
      else
        .ok { s with
          elevators := modifyAt s.elevators e.toNat
            (fun el => { el with going_to := el.going_to ++ [f] }) }
    | _ => .ok { s with events := s.events ++ [goErrMsg] }
  else if startsWithChars ("dump".toList) a.toList then
    match parseArgs a with
    | some [e] =>
      if e < 0 ∨ e ≥ (s.elevators.length : Int) then
        .ok { s with events := s.events ++ [dumpErrMsg s] }
      else
        match s.elevators.get? e.toNat with
        | some el =>
          if el.floor < (s.floors.length : Int) - 1 then
            .ok { s with events := s.events ++ [dumpErrMsg s] }
          else
            .ok { s with
              events := s.events ++
                [toString el.passengers.length ++ " passengers dumped into the pit."],
              elevators := s.elevators.set e.toNat { el with passengers := [] } }
        | none => .ok { s with events := s.events ++ [dumpErrMsg s] }
    | _ => .ok { s with events := s.events ++ [dumpErrMsg s] }
  else if startsWithChars ("close".toList) a.toList then
    match parseArgs a with
    | some [e] =>
      if e < 0 ∨ e ≥ (s.elevators.length : Int) then
        .ok { s with events := s.events ++ [closeErrMsg] }
      else
        .ok { s with
          events := s.events ++
            ["🔒 Forcibly closed elevator " ++ toString e ++ "\x27s door."],
          elevators := modifyAt s.elevators e.toNat
            (fun el => { el with doors_open := false }) }
    | _ => .ok { s with events := s.events ++ [closeErrMsg] }
  else .ok { s with events := s.events ++ [invalidActionMsg a] }

/-- Does a result of `update` represent a normally completed tick? -/
def exceptOk (x : Except String State) : Bool :=
  match x with
  | .ok _ => true
  | .error _ => false

/-- A command string the interpreter rejects: the branch conditions under
which `handle_action`'s `go`/`dump`/`close` handlers raise into their
`except` clauses, or the catch-all branch. -/
def malformed (s : State) (a : String) : Bool :=
  if a = "quit" then false
  else if a = "" then false
  else if startsWithChars ("go".toList) a.toList then
    match parseArgs a with
    | some [e, f] =>
      decide (e ≥ (s.elevators.length : Int) ∨ f ≥ (s.floors.length : Int)) ||
        decide (e < 0 ∨ f < 0)
    | _ => true
  else if startsWithChars ("dump".toList) a.toList then
    match parseArgs a with
    | some [e] =>
      decide (e < 0 ∨ e ≥ (s.elevators.length : Int)) ||
        (match s.elevators.get? e.toNat with
         | some el => decide (el.floor < (s.floors.length : Int) - 1)
         | none => true)
    | _ => true
  else if startsWithChars ("close".toList) a.toList then
    match parseArgs a with
    | some [e] => decide (e < 0 ∨ e ≥ (s.elevators.length : Int))
    | _ => true
  else true

/-- The single error event a malformed command produces. -/
def errEventFor (s : State) (a : String) : String :=
  if startsWithChars ("go".toList) a.toList then goErrMsg
  else if startsWithChars ("dump".toList) a.toList then dumpErrMsg s
  else if startsWithChars ("close".toList) a.toList then closeErrMsg
  else invalidActionMsg a

/-- The capacity invariant of the spec: a positive capacity bounds the
number of passengers in the car. -/
def CapInv (s : State) : Prop :=
  ∀ el ∈ s.elevators, 0 < el.capacity → (el.passengers.length : Int) ≤ el.capacity

/-! Concrete states used by counterexamples and witnesses. -/

/-- The all-defaults random draw: `u = 0`, so with `arrival_rate = 0` the
spawn comparison `0 < 0` is false and the spawner never fires. -/
def r0 : Rand := {}

/-- A failed state whose single elevator still has a queued destination. -/
def sC1 : State :=
  { failed := true, time_remaining := 5, floors := [{}, {}],
    elevators := [{ floor := 0, doors_open := false, going_to := [1] }] }

/-- What one idle tick makes of `sC1`: the elevator moved up a floor and the
clock ran, although the state was already failed. -/
def sC1out : State :=
  { sC1 with
    time_remaining := 4,
    elevators := [{ floor := 1, doors_open := false, going_to := [1] }] }

/-- A capacity-0 elevator with open doors and an empty car. -/
def elC3 : Elevator := { floor := 0, doors_open := true, capacity := 0 }

/-- A floor with one waiting passenger. -/
def flC3 : Floor := { passengers := [{ target_floor := 1 }] }

/-- A capacity-0 elevator with open doors, an empty car, and a passenger
waiting on its floor. -/
def sC3 : State :=
  { time_remaining := 5, floors := [flC3, {}], elevators := [elC3] }

/-- What one tick makes of `sC3`: nobody boards, the doors close. -/
def sC3out : State :=
  { sC3 with
    time_remaining := 4,
    elevators := [{ floor := 0, doors_open := false, capacity := 0 }],
    events := ["❇️  Elevator 0 ready to move."] }

/-- A state carrying a leftover event from an earlier turn. -/
def sC4 : State := { time_remaining := 5, events := ["stale"] }

/-- A minimal state for exercising command validation. -/
def sW2 : State := { time_remaining := 3 }

/-- One elevator, two floors: a home for a valid `go 0 1`. -/
def sW5 : State := { time_remaining := 3, floors := [{}, {}], elevators := [{ capacity := 5 }] }

/-- A state satisfying the capacity invariant. -/
def sW6 : State :=
  { time_remaining := 3, floors := [{}],
    elevators := [{ capacity := 2, passengers := [{ target_floor := 0 }] }] }

/-- `sW6` after `close 0`. -/
def sW6out : State :=
  { sW6 with
    events := ["🔒 Forcibly closed elevator 0\x27s door."],
    elevators := [{ capacity := 2, passengers := [{ target_floor := 0 }], doors_open := false }] }

/-- An elevator whose front passenger does not want the current floor while
the second one does. -/
def elW7 : Elevator :=
  { floor := 1, doors_open := true, capacity := 5,
    passengers := [{ target_floor := 0 }, { target_floor := 1 }] }

/-- A state containing `elW7`. -/
def sW7 : State := { time_remaining := 5, floors := [{}, {}], elevators := [elW7] }

/-- A VIP passenger bound for floor 1. -/
def pW8 : Passenger := { target_floor := 1, kind := .VIP }

/-- An elevator about to drop off a VIP at its target floor. -/
def elW8 : Elevator :=
  { floor := 1, doors_open := true, capacity := 5, passengers := [pW8] }

/-- A state containing `elW8`. -/
def sW8 : State := { time_remaining := 5, floors := [{}, {}], elevators := [elW8] }

/-- `sW8` after one tick: the VIP disembarked. -/
def sW8out : State :=
  { sW8 with
    time_remaining := 4,
    score := 11,
    elevators := [{ floor := 1, doors_open := true, capacity := 5, passengers := [] }],
    events := ["🎉 Elevator 0 dropped off a passenger.", "📈  +10 bonus score!"] }

/-- An empty quiescent state for the time-budget witness. -/
def sW9 : State := { time_remaining := 5 }

/-- `sW9` after one idle tick. -/
def sW9out : State := { sW9 with time_remaining := 4 }

/-- A single-floor state with certain arrival. -/
def sW10 : State := { config := { arrival_rate := 1 }, time_remaining := 5, floors := [{}] }

/-! Helper lemmas. -/

theorem time_plus_zero (n : Int) : n = n + 20 * 0 := by omega

theorem pySet_length (xs : List α) (i : Int) (a : α) :
    (pySet xs i a).length = xs.length := by
  unfold pySet
  split <;> simp

theorem mem_modifyAt {xs : List α} {i : Nat} {f : α → α} {b : α}
    (h : b ∈ modifyAt xs i f) : b ∈ xs ∨ ∃ x ∈ xs, b = f x := by
  unfold modifyAt at h
  split at h
  case h_1 x hx =>
    rcases List.mem_or_eq_of_mem_set h with h2 | h2
    · exact Or.inl h2
    · exact Or.inr ⟨x, List.get?_mem hx, h2⟩
  case h_2 => exact Or.inl h

theorem handle_debark_frame (s : State) (p : Passenger) :
    (handle_debark s p).failed = s.failed ∧
    (handle_debark s p).config = s.config ∧
    (handle_debark s p).floors = s.floors ∧
    (handle_debark s p).elevators = s.elevators ∧
    (∃ k : Nat, (handle_debark s p).time_remaining = s.time_remaining + 20 * k) ∧
    (∃ t, (handle_debark s p).events = s.events ++ t) := by
  cases hk : p.kind
  case Ordinary =>
    unfold handle_debark
    rw [hk]
    refine ⟨rfl, rfl, rfl, rfl, ⟨0, ?_⟩, ⟨[], by simp⟩⟩
    show s.time_remaining = s.time_remaining + 20 * 0
    omega
  case Brick =>
    unfold handle_debark
    rw [hk]
    refine ⟨rfl, rfl, rfl, rfl, ⟨0, ?_⟩, ⟨_, rfl⟩⟩
    show s.time_remaining = s.time_remaining + 20 * 0
    omega
  case VIP =>
    unfold handle_debark
    rw [hk]
    refine ⟨rfl, rfl, rfl, rfl, ⟨0, ?_⟩, ⟨_, rfl⟩⟩
    show s.time_remaining = s.time_remaining + 20 * 0
    omega
  case Mechanic =>
    unfold handle_debark
    rw [hk]
    refine ⟨rfl, rfl, rfl, rfl, ⟨1, ?_⟩, ⟨_, rfl⟩⟩
    show s.time_remaining + 20 = s.time_remaining + 20 * 1
    omega

theorem stepElevator_frame {s s' : State} {i : Nat}
    (h : stepElevator s i = .ok s') :
    s'.failed = s.failed ∧ s'.config = s.config ∧
    s'.floors.length = s.floors.length ∧
    s'.elevators.length = s.elevators.length ∧
    (∃ k : Nat, s'.time_remaining = s.time_remaining + 20 * k) ∧
    (∃ t, s'.events = s.events ++ t) := by
  unfold stepElevator at h
  split at h
  · injection h with h
    subst h
    exact ⟨rfl, rfl, rfl, rfl, ⟨0, by ring⟩, ⟨[], by simp⟩⟩
  case h_2 el hel =>
    split at h
    · -- doors open
      split at h
      · exact absurd h (by simp)
      case h_2 fl hfl =>
        split at h
        · -- somebody wants out
          split at h
          · exact absurd h (by simp)
          case h_2 p rest hp =>
            split at h
            · -- front passenger disembarks
              injection h with h
              subst h
              obtain ⟨h1, h2, h3, h4, h5, t, h6⟩ := handle_debark_frame
                { s with
                  elevators := s.elevators.set i { el with passengers := rest },
                  events := s.events ++
                    ["🎉 Elevator " ++ toString i ++ " dropped off a passenger."] } p
              refine ⟨h1, h2, by rw [h3], by simp [h4], h5,
                ⟨["🎉 Elevator " ++ toString i ++ " dropped off a passenger."] ++ t, ?_⟩⟩
              rw [h6, List.append_assoc]
            · -- front passenger pushed back to the floor queue
              injection h with h
              subst h
              exact ⟨rfl, rfl, by simp [pySet_length], by simp, ⟨0, by ring⟩, ⟨[], by simp⟩⟩
        · -- nobody wants out: board or close
          split at h
          · -- boarding
            split at h <;>
            · injection h with h
              subst h
              refine ⟨rfl, rfl, by simp [pySet_length], by simp, ⟨0, time_plus_zero s.time_remaining⟩, ?_⟩
              first
              | exact ⟨_, rfl⟩
              | exact ⟨[], by simp⟩
          · -- close the doors
            split at h <;>
            · injection h with h
              subst h
              refine ⟨rfl, rfl, rfl, by simp, ⟨0, time_plus_zero s.time_remaining⟩, ?_⟩
              first
              | exact ⟨_, rfl⟩
              | exact ⟨[], by simp⟩
    · -- doors closed
      split at h
      · injection h with h
        subst h
        exact ⟨rfl, rfl, rfl, rfl, ⟨0, by ring⟩, ⟨[], by simp⟩⟩
      · split at h
        · injection h with h
          subst h
          exact ⟨rfl, rfl, rfl, by simp, ⟨0, by ring⟩, ⟨[], by simp⟩⟩
        · split at h <;>
          · injection h with h
            subst h
            exact ⟨rfl, rfl, rfl, by simp, ⟨0, by ring⟩, ⟨[], by simp⟩⟩

theorem foldSteps_frame : ∀ (l : List Nat) (s s' : State),
    foldSteps l s = .ok s' →
    s'.failed = s.failed ∧ s'.config = s.config ∧
    s'.floors.length = s.floors.length ∧
    s'.elevators.length = s.elevators.length ∧
    (∃ k : Nat, s'.time_remaining = s.time_remaining + 20 * k) ∧
    (∃ t, s'.events = s.events ++ t)
  | [], s, s', h => by
    injection h with h
    subst h
    exact ⟨rfl, rfl, rfl, rfl, ⟨0, time_plus_zero s.time_remaining⟩, ⟨[], by simp⟩⟩
  | i :: l, s, s', h => by
    unfold foldSteps at h
    split at h
    · exact absurd h (by simp)
    case h_2 s1 hs =>
      obtain ⟨f1, c1, fl1, e1, ⟨k1, t1⟩, ⟨ev1, hev1⟩⟩ := stepElevator_frame hs
      obtain ⟨f2, c2, fl2, e2, ⟨k2, t2⟩, ⟨ev2, hev2⟩⟩ := foldSteps_frame l s1 s' h
      refine ⟨f2.trans f1, c2.trans c1, fl2.trans fl1, e2.trans e1,
        ⟨k1 + k2, by omega⟩, ⟨ev1 ++ ev2, ?_⟩⟩
      rw [hev2, hev1, List.append_assoc]

theorem spawn_frame {s s' : State} {r : Rand} (h : spawn s r = .ok s') :
    s'.failed = s.failed ∧ s'.config = s.config ∧ s'.score = s.score ∧
    s'.time_remaining = s.time_remaining ∧ s'.elevators = s.elevators ∧
    s'.floors.length = s.floors.length ∧
    (∃ t, s'.events = s.events ++ t) := by
  unfold spawn at h
  repeat' split at h
  all_goals first
  | (injection h with h
     subst h)
  | injection h
  all_goals first
  | exact ⟨rfl, rfl, rfl, rfl, rfl, by simp [pySet_length], ⟨_, rfl⟩⟩
  | exact ⟨rfl, rfl, rfl, rfl, rfl, rfl, ⟨[], by simp⟩⟩

theorem update_props {s s' : State} {r : Rand} (h : update s r = .ok s') :
    s'.failed = (s.failed || decide (s'.time_remaining ≤ 0)) ∧
    (∃ k : Nat, s'.time_remaining = s.time_remaining - 1 + 20 * k) ∧
    s'.config = s.config ∧
    s'.floors.length = s.floors.length ∧
    s'.elevators.length = s.elevators.length ∧
    (∃ t, s'.events = s.events ++ t) ∧
    (s.failed = false → s'.failed = true →
      ("⌛ Out of time. Final score: " ++ toString s'.score) ∈ s'.events) := by
  unfold update at h
  split at h
  · injection h
  case h_2 s1 h1 =>
    split at h
    · injection h
    case h_2 s2 h2 =>
      obtain ⟨f1, c1, fl1, e1, ⟨k1, t1⟩, ⟨ev1, hev1⟩⟩ :=
        foldSteps_frame (List.range s.elevators.length) _ _ h1
      obtain ⟨f2, c2, s2s, t2, el2, fl2, ⟨ev2, hev2⟩⟩ := spawn_frame h2
      have f1' : s1.failed = s.failed := f1
      have c1' : s1.config = s.config := c1
      have fl1' : s1.floors.length = s.floors.length := fl1
      have e1' : s1.elevators.length = s.elevators.length := e1
      have t1' : s1.time_remaining = s.time_remaining - 1 + 20 * k1 := t1
      have hev1' : s1.events = s.events ++ ev1 := hev1
      split at h
      case isTrue hle =>
        injection h with h
        subst h
        refine ⟨?_, ⟨k1, ?_⟩, ?_, ?_, ?_, ?_, ?_⟩
        · show true = (s.failed || decide (s2.time_remaining ≤ 0))
          simp [hle]
        · show s2.time_remaining = s.time_remaining - 1 + 20 * k1
          omega
        · show s2.config = s.config
          rw [c2, c1']
        · show s2.floors.length = s.floors.length
          rw [fl2, fl1']
        · show s2.elevators.length = s.elevators.length
          rw [el2, e1']
        · refine ⟨ev1 ++ ev2 ++ ["⌛ Out of time. Final score: " ++ toString s2.score], ?_⟩
          show s2.events ++ ["⌛ Out of time. Final score: " ++ toString s2.score] = s.events ++ _
          rw [hev2, hev1']
          simp
        · intro _ _
          show ("⌛ Out of time. Final score: " ++ toString s2.score) ∈
            s2.events ++ ["⌛ Out of time. Final score: " ++ toString s2.score]
          simp
      case isFalse hle =>
        injection h with h
        subst h
        refine ⟨?_, ⟨k1, by omega⟩, by rw [c2, c1'], by rw [fl2, fl1'], by rw [el2, e1'],
          ?_, ?_⟩
        · simp [f2, f1', hle]
        · exact ⟨ev1 ++ ev2, by rw [hev2, hev1', List.append_assoc]⟩
        · intro hf0 hf1
          rw [f2, f1', hf0] at hf1
          exact absurd hf1 (by simp)

/-- Relation between input and output elevators of every non-tick command:
each output elevator comes from an input elevator with the same capacity and
either the same passenger list or an emptied one. -/
def elevRelated (s s' : State) : Prop :=
  ∀ el2 ∈ s'.elevators, ∃ el1, el1 ∈ s.elevators ∧ el2.capacity = el1.capacity ∧
    (el2.passengers = el1.passengers ∨ el2.passengers = [])

theorem handle_action_split {s s' : State} {a : String} {r : Rand}
    (h : handle_action s a r = .ok s') :
    (a = "" ∧ update s r = .ok s') ∨
    (a ≠ "" ∧ (∃ t, s'.events = s.events ++ t) ∧ s'.score = s.score ∧
      s'.time_remaining = s.time_remaining ∧ s'.failed = s.failed ∧
      s'.config = s.config ∧ s'.floors = s.floors ∧ elevRelated s s') := by
  unfold handle_action at h
  split at h
  · injection h
  case isFalse hq =>
    split at h
    case isTrue ha =>
      split at h
      case h_1 s2 hu =>
        injection h with h
        subst h
        exact Or.inl ⟨ha, hu⟩
      case h_2 => injection h
    case isFalse ha =>
      right
      refine ⟨ha, ?_⟩
      split at h
      case isTrue hgo =>
        split at h
        case h_1 e f hp =>
          split at h
          case isTrue =>
            injection h with h
            subst h
            exact ⟨⟨_, rfl⟩, rfl, rfl, rfl, rfl, rfl, fun el2 h2 => ⟨el2, h2, rfl, Or.inl rfl⟩⟩
          case isFalse =>
            split at h
            case isTrue =>
              injection h with h
              subst h
              exact ⟨⟨_, rfl⟩, rfl, rfl, rfl, rfl, rfl, fun el2 h2 => ⟨el2, h2, rfl, Or.inl rfl⟩⟩
            case isFalse =>
              injection h with h
              subst h
              refine ⟨⟨[], by simp⟩, rfl, rfl, rfl, rfl, rfl, ?_⟩
              intro el2 h2
              rcases mem_modifyAt h2 with h3 | ⟨x, hx, rfl⟩
              · exact ⟨el2, h3, rfl, Or.inl rfl⟩
              · exact ⟨x, hx, rfl, Or.inl rfl⟩
        case h_2 =>
          injection h with h
          subst h
          exact ⟨⟨_, rfl⟩, rfl, rfl, rfl, rfl, rfl, fun el2 h2 => ⟨el2, h2, rfl, Or.inl rfl⟩⟩
      case isFalse =>
        split at h
        case isTrue hdump =>
          split at h
          case h_1 e hp =>
            split at h
            case isTrue =>
              injection h with h
              subst h
              exact ⟨⟨_, rfl⟩, rfl, rfl, rfl, rfl, rfl, fun el2 h2 => ⟨el2, h2, rfl, Or.inl rfl⟩⟩
            case isFalse =>
              split at h
              case h_1 el hel =>
                split at h
                case isTrue =>
                  injection h with h
                  subst h
                  exact ⟨⟨_, rfl⟩, rfl, rfl, rfl, rfl, rfl,
                    fun el2 h2 => ⟨el2, h2, rfl, Or.inl rfl⟩⟩
                case isFalse =>
                  injection h with h
                  subst h
                  refine ⟨⟨_, rfl⟩, rfl, rfl, rfl, rfl, rfl, ?_⟩
                  intro el2 h2
                  rcases List.mem_or_eq_of_mem_set h2 with h3 | h3
                  · exact ⟨el2, h3, rfl, Or.inl rfl⟩
                  · exact ⟨el, List.get?_mem hel, by rw [h3], Or.inr (by rw [h3])⟩
              case h_2 =>
                injection h with h
                subst h
                exact ⟨⟨_, rfl⟩, rfl, rfl, rfl, rfl, rfl,
                  fun el2 h2 => ⟨el2, h2, rfl, Or.inl rfl⟩⟩
          case h_2 =>
            injection h with h
            subst h
            exact ⟨⟨_, rfl⟩, rfl, rfl, rfl, rfl, rfl, fun el2 h2 => ⟨el2, h2, rfl, Or.inl rfl⟩⟩
        case isFalse =>
          split at h
          case isTrue hclose =>
            split at h
            case h_1 e hp =>
              split at h
              case isTrue =>
                injection h with h
                subst h
                exact ⟨⟨_, rfl⟩, rfl, rfl, rfl, rfl, rfl,
                  fun el2 h2 => ⟨el2, h2, rfl, Or.inl rfl⟩⟩
              case isFalse =>
                injection h with h
                subst h
                refine ⟨⟨_, rfl⟩, rfl, rfl, rfl, rfl, rfl, ?_⟩
                intro el2 h2
                rcases mem_modifyAt h2 with h3 | ⟨x, hx, rfl⟩
                · exact ⟨el2, h3, rfl, Or.inl rfl⟩
                · exact ⟨x, hx, rfl, Or.inl rfl⟩
            case h_2 =>
              injection h with h
              subst h
              exact ⟨⟨_, rfl⟩, rfl, rfl, rfl, rfl, rfl, fun el2 h2 => ⟨el2, h2, rfl, Or.inl rfl⟩⟩
          case isFalse =>
            injection h with h
            subst h
            exact ⟨⟨_, rfl⟩, rfl, rfl, rfl, rfl, rfl, fun el2 h2 => ⟨el2, h2, rfl, Or.inl rfl⟩⟩

theorem stepElevator_capInv {s s' : State} {i : Nat}
    (hInv : CapInv s) (h : stepElevator s i = .ok s') : CapInv s' := by
  unfold stepElevator at h
  split at h
  · injection h with h
    subst h
    exact hInv
  case h_2 el hel =>
    have helm : el ∈ s.elevators := List.get?_mem hel
    split at h
    · split at h
      · injection h
      case h_2 fl hfl =>
        split at h
        · split at h
          · injection h
          case h_2 p rest hp =>
            split at h
            · -- the front passenger disembarks
              injection h with h
              subst h
              intro e2 h2 hc
              rw [(handle_debark_frame _ _).2.2.2.1] at h2
              rcases List.mem_or_eq_of_mem_set h2 with h3 | h3
              · exact hInv e2 h3 hc
              · subst h3
                have hb := hInv el helm
                simp only [hp, List.length_cons] at hb
                have hc' : 0 < el.capacity := hc
                have hb' := hb hc'
                show (rest.length : Int) ≤ el.capacity
                push_cast at hb' ⊢
                omega
            · -- the front passenger is pushed back onto the floor
              injection h with h
              subst h
              intro e2 h2 hc
              rcases List.mem_or_eq_of_mem_set h2 with h3 | h3
              · exact hInv e2 h3 hc
              · subst h3
                have hb := hInv el helm
                simp only [hp, List.length_cons] at hb
                have hc' : 0 < el.capacity := hc
                have hb' := hb hc'
                show (rest.length : Int) ≤ el.capacity
                push_cast at hb' ⊢
                omega
        · split at h
          case h_1 q qrest hfp hcap =>
            -- boarding: the guard gives strict room
            have hroom : (el.passengers.length : Int) < el.capacity := of_decide_eq_true hcap
            split at h <;>
            · injection h with h
              subst h
              intro e2 h2 hc
              rcases List.mem_or_eq_of_mem_set h2 with h3 | h3
              · exact hInv e2 h3 hc
              · subst h3
                show ((q :: el.passengers).length : Int) ≤ el.capacity
                simp only [List.length_cons]
                push_cast
                omega
          case h_2 =>
            split at h <;>
            · injection h with h
              subst h
              intro e2 h2 hc
              rcases List.mem_or_eq_of_mem_set h2 with h3 | h3
              · exact hInv e2 h3 hc
              · subst h3
                exact hInv el helm hc
    · split at h
      · injection h with h
        subst h
        exact hInv
      · split at h
        · injection h with h
          subst h
          intro e2 h2 hc
          rcases List.mem_or_eq_of_mem_set h2 with h3 | h3
          · exact hInv e2 h3 hc
          · subst h3
            exact hInv el helm hc
        · split at h <;>
          · injection h with h
            subst h
            intro e2 h2 hc
            rcases List.mem_or_eq_of_mem_set h2 with h3 | h3
            · exact hInv e2 h3 hc
            · subst h3
              exact hInv el helm hc

theorem foldSteps_capInv : ∀ (l : List Nat) (s s' : State),
    CapInv s → foldSteps l s = .ok s' → CapInv s'
  | [], s, s', hInv, h => by
    injection h with h
    subst h
    exact hInv
  | i :: l, s, s', hInv, h => by
    unfold foldSteps at h
    split at h
    · injection h
    case h_2 s1 hs =>
      exact foldSteps_capInv l s1 s' (stepElevator_capInv hInv hs) h

theorem update_capInv {s s' : State} {r : Rand}
    (hInv : CapInv s) (h : update s r = .ok s') : CapInv s' := by
  unfold update at h
  split at h
  · injection h
  case h_2 s1 h1 =>
    split at h
    · injection h
    case h_2 s2 h2 =>
      have hInv1 : CapInv s1 :=
        foldSteps_capInv (List.range s.elevators.length) _ _
          (show CapInv { s with time_remaining := s.time_remaining - 1 } from hInv) h1
      have hInv2 : CapInv s2 := by
        obtain ⟨-, -, -, -, hel, -, -⟩ := spawn_frame h2
        intro e2 he2 hc
        rw [hel] at he2
        exact hInv1 e2 he2 hc
      split at h <;>
      · injection h with h
        subst h
        exact hInv2

theorem stepElevator_debark {s : State} {i : Nat} {el : Elevator} {fl : Floor}
    {p : Passenger} {rest : List Passenger}
    (hel : s.elevators.get? i = some el) (hdoors : el.doors_open = true)
    (hfl : pyGet s.floors el.floor = some fl)
    (hp : el.passengers = p :: rest) (htf : p.target_floor = el.floor) :
    stepElevator s i = .ok (handle_debark
      { s with
        elevators := s.elevators.set i { el with passengers := rest },
        events := s.events ++
          ["🎉 Elevator " ++ toString i ++ " dropped off a passenger."] } p) := by
  have hany : (el.passengers.any fun q => q.target_floor == el.floor) = true := by
    rw [hp]
    simp [htf]
  unfold stepElevator
  rw [hel]
  dsimp only
  rw [if_pos hdoors, hfl]
  dsimp only
  rw [if_pos hany, hp]
  dsimp only
  rw [if_pos (by simp [htf])]

/-! Claim theorems. -/

/-- C1 counterexample: the claim "for every state s with s.failed = true and
every command string a, handle_action(s, a) leaves floors, elevators, and
score unchanged" is false: on the failed state `sC1` an idle tick still moves
the elevator and decrements the clock, because neither `handle_action` nor
`update` tests `failed`. -/
theorem C1_claim_counterexample :
    sC1.failed = true ∧
    handle_action sC1 "" r0 = .ok sC1out ∧
    sC1out.elevators ≠ sC1.elevators ∧
    sC1out.time_remaining ≠ sC1.time_remaining := by
  refine ⟨rfl, by decide, by decide, by decide⟩

/-- C1 (amended): `failed` is monotone in the weaker sense the code actually
guarantees: no `handle_action` call ever resets `failed` to false — once a
state is failed, every state the interpreter returns is still failed (the
freeze after failure is enforced by `main_loop` ceasing to call the core,
not inside `handle_action`). -/
theorem C1_failed_monotone {s s' : State} {a : String} {r : Rand}
    (hf : s.failed = true) (h : handle_action s a r = .ok s') :
    s'.failed = true := by
  rcases handle_action_split h with ⟨-, hu⟩ | ⟨-, -, -, -, hfd, -⟩
  · obtain ⟨hfd, -⟩ := update_props hu
    rw [hfd, hf]
    simp
  · rw [hfd, hf]

/-- C1 witness: the amended monotonicity applied to the concrete failed state
`sC1` and the idle-tick command. -/
theorem C1_failed_monotone_witness :
    sC1.failed = true ∧ sC1out.failed = true :=
  ⟨rfl, C1_failed_monotone rfl (show handle_action sC1 "" r0 = .ok sC1out by decide)⟩

/-- C2: every command the interpreter rejects (its validation conditions are
collected in `malformed`: bad integers, wrong argument count, out-of-range or
negative indices, dump away from the top floor, unrecognized text) appends
exactly the one error event `errEventFor` and leaves every other field of the
state — floors, elevators, score, time_remaining, failed, config — unchanged. -/
theorem C2_malformed_single_error {s : State} {a : String} {r : Rand}
    (hm : malformed s a = true) :
    handle_action s a r = .ok { s with events := s.events ++ [errEventFor s a] } := by
  unfold malformed at hm
  split at hm
  · simp at hm
  case isFalse hq =>
    split at hm
    · simp at hm
    case isFalse ha =>
      unfold handle_action
      rw [if_neg hq, if_neg ha]
      split at hm
      case isTrue hgo =>
        have he : errEventFor s a = goErrMsg := by
          unfold errEventFor
          rw [if_pos hgo]
        rw [if_pos hgo, he]
        split
        case h_1 e f heq =>
          rw [heq] at hm
          simp only [Bool.or_eq_true, decide_eq_true_eq] at hm
          split
          · rfl
          case isFalse h1 =>
            split
            · rfl
            case isFalse h2 =>
              rcases hm with hm | hm
              · exact absurd hm h1
              · exact absurd hm h2
        case h_2 => rfl
      case isFalse hgo =>
        split at hm
        case isTrue hdump =>
          have he : errEventFor s a = dumpErrMsg s := by
            unfold errEventFor
            rw [if_neg hgo, if_pos hdump]
          rw [if_neg hgo, if_pos hdump, he]
          split
          case h_1 e heq =>
            rw [heq] at hm
            dsimp only at hm
            split
            · rfl
            case isFalse h1 =>
              split
              case h_1 el hel =>
                rw [hel] at hm
                simp only [Bool.or_eq_true, decide_eq_true_eq] at hm
                split
                · rfl
                case isFalse h2 =>
                  rcases hm with hm | hm
                  · exact absurd hm h1
                  · exact absurd hm h2
              case h_2 hel => rfl
          case h_2 => rfl
        case isFalse hdump =>
          split at hm
          case isTrue hclose =>
            have he : errEventFor s a = closeErrMsg := by
              unfold errEventFor
              rw [if_neg hgo, if_neg hdump, if_pos hclose]
            rw [if_neg hgo, if_neg hdump, if_pos hclose, he]
            split
            case h_1 e heq =>
              rw [heq] at hm
              simp only [decide_eq_true_eq] at hm
              split
              · rfl
              case isFalse h1 => exact absurd hm h1
            case h_2 => rfl
          case isFalse hclose =>
            have he : errEventFor s a = invalidActionMsg a := by
              unfold errEventFor
              rw [if_neg hgo, if_neg hdump, if_neg hclose]
            rw [if_neg hgo, if_neg hdump, if_neg hclose, he]

/-- C2 witness: `go 9 9` on a state with no elevators is malformed and yields
exactly the one `go` error event. -/
theorem C2_malformed_single_error_witness :
    malformed sW2 "go 9 9" = true ∧
    handle_action sW2 "go 9 9" r0 =
      .ok { sW2 with events := sW2.events ++ [errEventFor sW2 "go 9 9"] } :=
  ⟨by decide, C2_malformed_single_error (by decide)⟩

/-- C4 counterexample: the claim that `handle_action` clears and replaces the
event log is false: called on a state whose log still holds the event
"stale", the interpreter appends to it, and the stale event is still in the
returned log. -/
theorem C4_claim_counterexample :
    handle_action sC4 "bogus" r0 =
      .ok { sC4 with events := ["stale", invalidActionMsg "bogus"] } ∧
    "stale" ∈ (["stale", invalidActionMsg "bogus"] : List String) := by
  exact ⟨by decide, by decide⟩

/-- C4 (amended): `handle_action` only appends to the incoming event log; the
clearing belongs to the driving loop (`main_loop` resets `state.events` to []
before each call), so the returned log consists solely of this turn's events
exactly when the caller passes the log in empty. -/
theorem C4_events_append_only {s s' : State} {a : String} {r : Rand}
    (h : handle_action s a r = .ok s') :
    ∃ t, s'.events = s.events ++ t := by
  rcases handle_action_split h with ⟨-, hu⟩ | ⟨-, hev, -⟩
  · obtain ⟨-, -, -, -, -, hev, -⟩ := update_props hu
    exact hev
  · exact hev

/-- C4 witness: the append-only behaviour at the concrete call of the
counterexample. -/
theorem C4_events_append_only_witness :
    ∃ t, (["stale", invalidActionMsg "bogus"] : List String) = sC4.events ++ t :=
  C4_events_append_only
    (show handle_action sC4 "bogus" r0 =
      .ok { sC4 with events := ["stale", invalidActionMsg "bogus"] } by decide)

/-- C6: the capacity invariant is preserved by every call into the core: if
every elevator with positive capacity is within capacity, then after any
command or idle tick every elevator with positive capacity is still within
capacity (boarding only happens under the strict guard
`len(passengers) < capacity`). -/
theorem C6_capacity_invariant {s s' : State} {a : String} {r : Rand}
    (hInv : CapInv s) (h : handle_action s a r = .ok s') : CapInv s' := by
  rcases handle_action_split h with ⟨-, hu⟩ | ⟨-, -, -, -, -, -, -, hrel⟩
  · exact update_capInv hInv hu
  · intro e2 h2 hc
    obtain ⟨e1, he1, hcap, hp | hp⟩ := hrel e2 h2
    · rw [hp, hcap]
      exact hInv e1 he1 (hcap ▸ hc)
    · rw [hp]
      simp
      omega

/-- C6 witness: the invariant survives a `close 0` command on `sW6`. -/
theorem C6_capacity_invariant_witness : CapInv sW6out :=
  C6_capacity_invariant (show CapInv sW6 by unfold CapInv; decide)
    (show handle_action sW6 "close 0" r0 = .ok sW6out by decide)

/-- C9: the time budget. An idle tick (the only path that reaches `update`)
decrements `time_remaining` by exactly 1 and then adds 20 for each Mechanic
that disembarked, and `failed` afterwards holds exactly when it already held
or the resulting `time_remaining` is ≤ 0; every other command leaves both
`time_remaining` and `failed` untouched. -/
theorem C9_time_budget {s s' : State} {a : String} {r : Rand}
    (h : handle_action s a r = .ok s') :
    (a = "" →
      (∃ k : Nat, s'.time_remaining = s.time_remaining - 1 + 20 * k) ∧
      s'.failed = (s.failed || decide (s'.time_remaining ≤ 0))) ∧
    (a = "" → s.failed = false → s'.failed = true →
      ("⌛ Out of time. Final score: " ++ toString s'.score) ∈ s'.events) ∧
    (a ≠ "" → s'.time_remaining = s.time_remaining ∧ s'.failed = s.failed) := by
  rcases handle_action_split h with ⟨ha, hu⟩ | ⟨hne, -, -, ht, hf, -⟩
  · obtain ⟨hfd, hk, -, -, -, -, hlog⟩ := update_props hu
    exact ⟨fun _ => ⟨hk, hfd⟩, fun _ => hlog, fun hne => absurd ha hne⟩
  · exact ⟨fun ha => absurd ha hne, fun ha => absurd ha hne, fun _ => ⟨ht, hf⟩⟩

/-- C9 witness: one idle tick on the quiescent `sW9` takes the clock from 5
to 4 and does not fail. -/
theorem C9_time_budget_witness :
    (("" : String) = "" →
      (∃ k : Nat, sW9out.time_remaining = sW9.time_remaining - 1 + 20 * k) ∧
      sW9out.failed = (sW9.failed || decide (sW9out.time_remaining ≤ 0))) ∧
    (("" : String) = "" → sW9.failed = false → sW9out.failed = true →
      ("⌛ Out of time. Final score: " ++ toString sW9out.score) ∈ sW9out.events) ∧
    (("" : String) ≠ "" →
      sW9out.time_remaining = sW9.time_remaining ∧ sW9out.failed = sW9.failed) :=
  C9_time_budget (show handle_action sW9 "" r0 = .ok sW9out by decide)

/-- C3 counterexample: the claim that a capacity-0 elevator is unbounded is
false: on `sC3` (capacity 0, doors open, empty car, a passenger waiting on
the current floor, arrival rate 0) the tick boards nobody — the waiting queue
is untouched, the car stays empty, and the doors close. -/
theorem C3_claim_counterexample :
    update sC3 r0 = .ok sC3out ∧
    sC3out.elevators = [{ floor := 0, doors_open := false, capacity := 0, passengers := [] }] ∧
    sC3out.floors = sC3.floors ∧
    sC3.floors = [{ passengers := [{ target_floor := 1 }] }, {}] := by
  refine ⟨by decide, by decide, by decide, by decide⟩

/-- C3 (amended): an elevator with capacity = 0 can never board: the boarding
guard is `len(passengers) < capacity`, which is false for capacity 0, so
under the claim's conditions (doors open, nobody inside wants the current
floor, somebody waiting) the tick closes the doors and leaves both the
waiting queue and the car unchanged — capacity 0 means "never boards", not
"unbounded". -/
theorem C3_cap_zero_never_boards {s : State} {i : Nat} {el : Elevator} {fl : Floor}
    (hel : s.elevators.get? i = some el) (hdoors : el.doors_open = true)
    (hcap : el.capacity = 0)
    (hnowant : ∀ q ∈ el.passengers, q.target_floor ≠ el.floor)
    (hfl : pyGet s.floors el.floor = some fl)
    (hwait : fl.passengers ≠ []) :
    stepElevator s i = .ok { s with
      elevators := s.elevators.set i { el with doors_open := false },
      events := s.events ++
        (if el.going_to.isEmpty then ["❇️  Elevator " ++ toString i ++ " ready to move."]
         else []) } := by
  have hany : (el.passengers.any fun q => q.target_floor == el.floor) = false := by
    simp only [List.any_eq_false]
    intro q hq
    simpa using hnowant q hq
  obtain ⟨q, qrest, hfp⟩ := List.exists_cons_of_ne_nil hwait
  have hguard : decide ((el.passengers.length : Int) < el.capacity) = false := by
    rw [hcap, decide_eq_false_iff_not]
    omega
  unfold stepElevator
  rw [hel]
  dsimp only
  rw [if_pos hdoors, hfl]
  dsimp only
  rw [if_neg (by simp [hany]), hfp, hguard]
  dsimp only
  cases hgo : el.going_to.isEmpty <;> simp [hgo]

/-- C3 witness: the amended no-boarding behaviour at the concrete state
`sC3`. -/
theorem C3_cap_zero_never_boards_witness :
    stepElevator sC3 0 = .ok { sC3 with
      elevators := sC3.elevators.set 0 { elC3 with doors_open := false },
      events := sC3.events ++
        (if elC3.going_to.isEmpty
         then ["❇️  Elevator " ++ toString 0 ++ " ready to move."] else []) } :=
  @C3_cap_zero_never_boards sC3 0 elC3 flC3
    (by decide) rfl rfl (by decide) (by decide) (by decide)

/-- C5: a well-formed `go` command with in-range indices appends the floor to
that elevator's destination queue and changes nothing else: the returned
state is the input state with only elevator `e`'s `going_to` extended by `f`
— score, time, failed, config, floors, events and all other elevator fields
are untouched, and no event is produced. -/
theorem C5_go_appends_destination {s : State} {r : Rand} {a : String} {e f : Int}
    (hq : a ≠ "quit") (hne : a ≠ "")
    (hgo : startsWithChars ("go".toList) a.toList = true)
    (hargs : parseArgs a = some [e, f])
    (he0 : 0 ≤ e) (he1 : e < (s.elevators.length : Int))
    (hf0 : 0 ≤ f) (hf1 : f < (s.floors.length : Int)) :
    handle_action s a r = .ok { s with
      elevators := modifyAt s.elevators e.toNat
        (fun el => { el with going_to := el.going_to ++ [f] }) } := by
  unfold handle_action
  rw [if_neg hq, if_neg hne, if_pos hgo, hargs]
  dsimp only
  rw [if_neg (by omega), if_neg (by omega)]

/-- C5 witness: `go 0 1` on `sW5` queues floor 1 for elevator 0. -/
theorem C5_go_appends_destination_witness :
    handle_action sW5 "go 0 1" r0 = .ok { sW5 with
      elevators := modifyAt sW5.elevators (0 : Int).toNat
        (fun el => { el with going_to := el.going_to ++ [(1 : Int)] }) } :=
  C5_go_appends_destination (by decide) (by decide) (by decide) (by decide)
    (by decide) (by decide) (by decide) (by decide)

/-- C7: the single-door exit rule of the doors-open phase. When some
passenger in the car wants the current floor, the front passenger is popped;
if its destination differs from the current floor it is pushed back onto the
front of the floor's waiting queue with no disembark effect — score and
events unchanged; only when the front passenger's target matches the current
floor is it disembarked through `handle_debark` with the success event. -/
theorem C7_front_exit_rule {s : State} {i : Nat} {el : Elevator} {fl : Floor}
    {p : Passenger} {rest : List Passenger}
    (hel : s.elevators.get? i = some el) (hdoors : el.doors_open = true)
    (hfl : pyGet s.floors el.floor = some fl)
    (hp : el.passengers = p :: rest)
    (hwant : ∃ q ∈ el.passengers, q.target_floor = el.floor) :
    (p.target_floor ≠ el.floor →
      stepElevator s i = .ok { s with
        elevators := s.elevators.set i { el with passengers := rest },
        floors := pySet s.floors el.floor
          { fl with passengers := p :: fl.passengers } })
    ∧ (p.target_floor = el.floor →
      stepElevator s i = .ok (handle_debark
        { s with
          elevators := s.elevators.set i { el with passengers := rest },
          events := s.events ++
            ["🎉 Elevator " ++ toString i ++ " dropped off a passenger."] } p)) := by
  constructor
  · intro hne
    have hany : (el.passengers.any fun q => q.target_floor == el.floor) = true := by
      rcases hwant with ⟨q, hq, hqf⟩
      exact List.any_eq_true.2 ⟨q, hq, by simp [hqf]⟩
    unfold stepElevator
    rw [hel]
    dsimp only
    rw [if_pos hdoors, hfl]
    dsimp only
    rw [if_pos hany, hp]
    dsimp only
    rw [if_neg (by simp [hne])]
  · intro htf
    exact stepElevator_debark hel hdoors hfl hp htf

/-- C7 witness: in `sW7` the front passenger wants floor 0 while the car is
at floor 1 and the second passenger wants floor 1; the exit rule applied
there. -/
theorem C7_front_exit_rule_witness :
    (({ target_floor := 0 } : Passenger).target_floor ≠ elW7.floor →
      stepElevator sW7 0 = .ok { sW7 with
        elevators := sW7.elevators.set 0 { elW7 with passengers := [{ target_floor := 1 }] },
        floors := pySet sW7.floors elW7.floor
          { ({} : Floor) with
              passengers := ({ target_floor := 0 } : Passenger) :: ({} : Floor).passengers } })
    ∧ (({ target_floor := 0 } : Passenger).target_floor = elW7.floor →
      stepElevator sW7 0 = .ok (handle_debark
        { sW7 with
          elevators := sW7.elevators.set 0 { elW7 with passengers := [{ target_floor := 1 }] },
          events := sW7.events ++
            ["🎉 Elevator " ++ toString 0 ++ " dropped off a passenger."] }
        { target_floor := 0 })) :=
  C7_front_exit_rule (by decide) rfl (by decide) (by decide) (by decide)

/-- C8: a VIP disembarking at its target floor is worth exactly +11 (the
code's configured VIP bonus; the spec allows 10 or 11) and logs the bonus
event: for a single-elevator state in the disembark configuration, a
completed tick raises the score by exactly 11 and the bonus event is in the
turn's log. -/
theorem C8_vip_bonus {s s' : State} {r : Rand} {el : Elevator} {p : Passenger}
    {rest : List Passenger}
    (hels : s.elevators = [el]) (hdoors : el.doors_open = true)
    (hp : el.passengers = p :: rest) (htf : p.target_floor = el.floor)
    (hk : p.kind = .VIP)
    (h : update s r = .ok s') :
    s'.score = s.score + 11 ∧ "📈  +10 bonus score!" ∈ s'.events := by
  unfold update at h
  split at h
  · injection h
  case h_2 s1 h1 =>
    have hel0 : ({ s with time_remaining := s.time_remaining - 1 } : State).elevators.get? 0
        = some el := by
      show s.elevators.get? 0 = some el
      rw [hels]
      rfl
    have hrange : List.range
        ({ s with time_remaining := s.time_remaining - 1 } : State).elevators.length = [0] := by
      show List.range s.elevators.length = [0]
      rw [hels]
      rfl
    unfold tickElevators at h1
    rw [hrange] at h1
    unfold foldSteps at h1
    cases hfl : pyGet s.floors el.floor with
    | none =>
      have hstep : stepElevator { s with time_remaining := s.time_remaining - 1 } 0 =
          .error "IndexError: list index out of range" := by
        unfold stepElevator
        rw [hel0]
        dsimp only
        rw [if_pos hdoors]
        rw [show pyGet ({ s with time_remaining := s.time_remaining - 1 } : State).floors
            el.floor = none from hfl]
      rw [hstep] at h1
      injection h1
    | some fl =>
      have hstep := @stepElevator_debark { s with time_remaining := s.time_remaining - 1 }
        0 el fl p rest hel0 hdoors hfl hp htf
      rw [hstep] at h1
      dsimp only at h1
      unfold foldSteps at h1
      injection h1 with h1
      have hdeb : s1.score = s.score + 11 ∧
          s1.events = (s.events ++ ["🎉 Elevator " ++ toString (0 : Nat) ++
            " dropped off a passenger."]) ++ ["📈  +10 bonus score!"] := by
        rw [← h1]
        unfold handle_debark
        rw [hk]
        exact ⟨rfl, rfl⟩
      split at h
      · injection h
      case h_2 s2 h2 =>
        obtain ⟨-, -, hscore2, -, -, -, ⟨ev2, hev2⟩⟩ := spawn_frame h2
        have hbonus1 : "📈  +10 bonus score!" ∈ s1.events := by
          rw [hdeb.2]
          simp
        have hbonus2 : "📈  +10 bonus score!" ∈ s2.events := by
          rw [hev2]
          exact List.mem_append_left _ hbonus1
        split at h <;>
        · injection h with h
          subst h
          refine ⟨?_, ?_⟩
          · show s2.score = s.score + 11
            rw [hscore2, hdeb.1]
          · first
            | exact List.mem_append_left _ hbonus2
            | exact hbonus2

/-- C8 witness: the VIP drop-off in `sW8` scores +11 and logs the bonus. -/
theorem C8_vip_bonus_witness :
    sW8out.score = sW8.score + 11 ∧ "📈  +10 bonus score!" ∈ sW8out.events :=
  @C8_vip_bonus sW8 sW8out r0 elW8 pW8 []
    (by decide) rfl (by decide) (by decide) (by decide)
    (show update sW8 r0 = .ok sW8out by decide)

/-- C10: with exactly one floor, any tick in which the spawn draw fires
(the uniform draw is below the arrival rate) cannot complete normally: the
destination draw is `randrange(0, 0)`, an empty range, so `update` raises
instead of returning a state — no passenger is ever produced. -/
theorem C10_single_floor_spawn_errors {s : State} {r : Rand}
    (h1 : s.floors.length = 1) (h2 : r.u < s.config.arrival_rate) :
    exceptOk (update s r) = false := by
  unfold update
  split
  · rfl
  case h_2 s1 ht =>
    obtain ⟨-, hc, hfl, -, -, -⟩ := foldSteps_frame _ _ _ ht
    have hc' : s1.config = s.config := hc
    have hfl1 : s1.floors.length = 1 := by
      have hfl' : s1.floors.length = s.floors.length := hfl
      omega
    have hsp : spawn s1 r = .error "ValueError: empty range for randrange()" := by
      unfold spawn
      rw [hc', if_pos h2, hfl1]
      unfold randrange
      norm_num
    rw [hsp]
    rfl

/-- C10 witness: the single-floor state `sW10` with certain arrival: the
tick errors out. -/
theorem C10_single_floor_spawn_errors_witness :
    sW10.floors.length = 1 ∧ r0.u < sW10.config.arrival_rate ∧
    exceptOk (update sW10 r0) = false :=
  ⟨rfl, by norm_num [r0, sW10],
    C10_single_floor_spawn_errors rfl (by norm_num [r0, sW10])⟩

end ElevatorSim
